import Mathlib

/-!
Shallow embedding of the CHIP-8 emulator core (`src/Chip8.rs`).

Machine integers are modelled as `Nat`, reduced modulo `2^8` / `2^16`
exactly at the operations whose Rust counterparts wrap (release-mode
semantics; a debug build would panic at those same overflow points).
Fixed-size arrays are modelled as total functions `Nat → Nat` together
with the bounds checks the Rust indexing performs: an index that would be
out of bounds, which panics in Rust, is modelled by the handler returning
`none`.  The thread-local RNG drawn from by opcode Cxkk is modelled by an
oracle byte field `rand`.  The dispatch tables built once in `Chip8::new`
are fixed function arrays; they are modelled by the total lookup
functions `table_0` … `table_f` below, with `op_null` in every slot that
`new` leaves unassigned.
-/

/-- Pointwise update of an array modelled as a function. -/
def upd (f : Nat → Nat) (i v : Nat) : Nat → Nat :=
  fun j => if j = i then v else f j

/-- The mutable machine state of `struct Chip8`. -/
structure Chip8 where
  registers : Nat → Nat
  memory : Nat → Nat
  index : Nat
  pc : Nat
  stack : Nat → Nat
  sp : Nat
  delay_timer : Nat
  sound_timer : Nat
  keypad : Nat → Nat
  video : Nat → Nat
  opcode : Nat
  rand : Nat

def VIDEO_WIDTH : Nat := 64

def VIDEO_HEIGHT : Nat := 32

/-- Operand field `(opcode & 0x0F00) >> 8`, decoded inline by each handler. -/
def opVx (s : Chip8) : Nat := (s.opcode &&& 0x0F00) >>> 8

/-- Operand field `(opcode & 0x00F0) >> 4`. -/
def opVy (s : Chip8) : Nat := (s.opcode &&& 0x00F0) >>> 4

/-- Operand field `opcode & 0x000F`. -/
def opN (s : Chip8) : Nat := s.opcode &&& 0x000F

/-- Operand field `(opcode & 0x00FF) as u8`. -/
def opKK (s : Chip8) : Nat := s.opcode &&& 0x00FF

/-- Operand field `opcode & 0x0FFF`. -/
def opNNN (s : Chip8) : Nat := s.opcode &&& 0x0FFF

/-- Unassigned-slot handler: does nothing. -/
def op_null (s : Chip8) : Option Chip8 := some s

/-- Opcode 00E0: clear the video array. -/
def op_00e0 (s : Chip8) : Option Chip8 :=
  some { s with video := fun _ => 0 }

/-- Opcode 00EE: `sp -= 1; pc = stack[sp]`.  The u8 decrement wraps; an index
outside the 16-entry stack panics in Rust, modelled as `none`. -/
def op_00ee (s : Chip8) : Option Chip8 :=
  let sp' := (s.sp + 255) % 256
  if sp' < 16 then some { s with sp := sp', pc := s.stack sp' } else none

/-- Opcode 1nnn: jump. -/
def op_1nnn (s : Chip8) : Option Chip8 :=
  some { s with pc := opNNN s }

/-- Opcode 2nnn: `stack[sp] = pc; sp += 1; pc = nnn`. -/
def op_2nnn (s : Chip8) : Option Chip8 :=
  if s.sp < 16 then
    some { s with stack := upd s.stack s.sp s.pc, sp := (s.sp + 1) % 256,
                  pc := opNNN s }
  else none

/-- Opcode 3xkk: skip next instruction if `Vx == kk`. -/
def op_3xkk (s : Chip8) : Option Chip8 :=
  if s.registers (opVx s) = opKK s then some { s with pc := (s.pc + 2) % 65536 }
  else some s

/-- Opcode 4xkk: the source body is identical to `op_3xkk` (it also skips when
`Vx == kk`, not when they differ). -/
def op_4xkk (s : Chip8) : Option Chip8 :=
  if s.registers (opVx s) = opKK s then some { s with pc := (s.pc + 2) % 65536 }
  else some s

/-- Opcode 5xy0: the source body is identical to `op_3xkk` (it compares `Vx`
with the immediate byte `kk`, never reading `Vy`). -/
def op_5xy0 (s : Chip8) : Option Chip8 :=
  if s.registers (opVx s) = opKK s then some { s with pc := (s.pc + 2) % 65536 }
  else some s

/-- Opcode 6xkk: `Vx = kk`. -/
def op_6xkk (s : Chip8) : Option Chip8 :=
  some { s with registers := upd s.registers (opVx s) (opKK s) }

/-- Opcode 7xkk: `Vx += kk`, u8 wraparound. -/
def op_7xkk (s : Chip8) : Option Chip8 :=
  some { s with registers := upd s.registers (opVx s) ((s.registers (opVx s) + opKK s) % 256) }

/-- Opcode 8xy0: `Vx = Vy`. -/
def op_8xy0 (s : Chip8) : Option Chip8 :=
  some { s with registers := upd s.registers (opVx s) (s.registers (opVy s)) }

/-- Opcode 8xy1: `Vx |= Vy`. -/
def op_8xy1 (s : Chip8) : Option Chip8 :=
  some { s with registers := upd s.registers (opVx s) (s.registers (opVx s) ||| s.registers (opVy s)) }

/-- Opcode 8xy2: `Vx &= Vy`. -/
def op_8xy2 (s : Chip8) : Option Chip8 :=
  some { s with registers := upd s.registers (opVx s) (s.registers (opVx s) &&& s.registers (opVy s)) }

/-- Opcode 8xy3: `Vx ^= Vy`. -/
def op_8xy3 (s : Chip8) : Option Chip8 :=
  some { s with registers := upd s.registers (opVx s) (s.registers (opVx s) ^^^ s.registers (opVy s)) }

/-- Opcode 8xy4: `sum` is the u8 addition `registers[vx] + registers[vy]`
(wrapping modulo 256) cast to u16 afterwards, so the `sum > 255` carry
test compares the already-wrapped byte; then `VF` is written, then
`Vx = sum & 0xFF`. -/
def op_8xy4 (s : Chip8) : Option Chip8 :=
  let sum := (s.registers (opVx s) + s.registers (opVy s)) % 256
  let regs1 := upd s.registers 15 (if 255 < sum then 1 else 0)
  some { s with registers := upd regs1 (opVx s) (sum &&& 0xFF) }

/-- Opcode 8xy5: write the no-borrow flag into `VF`, then `Vx -= Vy` with u8
wraparound (the subtraction reads the register file after the flag
write). -/
def op_8xy5 (s : Chip8) : Option Chip8 :=
  let regs1 := upd s.registers 15
    (if s.registers (opVy s) < s.registers (opVx s) then 1 else 0)
  some { s with registers := upd regs1 (opVx s) ((regs1 (opVx s) + 256 - regs1 (opVy s)) % 256) }

/-- Opcode 8xy6: save the low bit of `Vx` in `VF`, then shift `Vx` right. -/
def op_8xy6 (s : Chip8) : Option Chip8 :=
  let regs1 := upd s.registers 15 (s.registers (opVx s) &&& 0x1)
  some { s with registers := upd regs1 (opVx s) (regs1 (opVx s) >>> 1) }

/-- Opcode 8xy7: write the no-borrow flag into `VF`, then `Vx = Vy - Vx` with u8
wraparound. -/
def op_8xy7 (s : Chip8) : Option Chip8 :=
  let regs1 := upd s.registers 15
    (if s.registers (opVx s) < s.registers (opVy s) then 1 else 0)
  some { s with registers := upd regs1 (opVx s) ((regs1 (opVy s) + 256 - regs1 (opVx s)) % 256) }

/-- Opcode 8xyE: save the high bit of `Vx` in `VF`, then shift `Vx` left
(u8, the shifted-out bit is discarded). -/
def op_8xye (s : Chip8) : Option Chip8 :=
  let regs1 := upd s.registers 15 ((s.registers (opVx s) &&& 0x80) >>> 7)
  some { s with registers := upd regs1 (opVx s) ((regs1 (opVx s) <<< 1) % 256) }

/-- Opcode 9xy0: skip next instruction if `Vx != Vy`. -/
def op_9xy0 (s : Chip8) : Option Chip8 :=
  if s.registers (opVx s) ≠ s.registers (opVy s) then
    some { s with pc := (s.pc + 2) % 65536 }
  else some s

/-- Annn: the source body sets `pc = registers[0] + nnn` (the same
formula as `op_bnnn`); it never writes the index register. -/
def op_annn (s : Chip8) : Option Chip8 :=
  some { s with pc := (s.registers 0 + opNNN s) % 65536 }

/-- Bnnn: `pc = registers[0] + nnn`. -/
def op_bnnn (s : Chip8) : Option Chip8 :=
  some { s with pc := (s.registers 0 + opNNN s) % 65536 }

/-- Cxkk: `Vx = random byte & kk`; the drawn byte is the oracle field. -/
def op_cxkk (s : Chip8) : Option Chip8 :=
  some { s with registers := upd s.registers (opVx s) (s.rand % 256 &&& opKK s) }

/-- One sprite bit: `sprite_byte & (0x80 >> col)`. -/
def spritePixel (b col : Nat) : Nat := b &&& (0x80 >>> col)

/-- The framebuffer index `((y_pos + row) * VIDEO_WIDTH + (x_pos + col))`,
computed entirely in u8 arithmetic as in the source, so every
intermediate wraps modulo 256. -/
def pixelIndex (xPos yPos row col : Nat) : Nat :=
  (((yPos + row) % 256) * VIDEO_WIDTH % 256 + ((xPos + col) % 256)) % 256

/-- One iteration of the Dxyn inner loop on the (video, VF) pair: read the
sprite bit for `(row, col)`; if set, record a collision when the screen
pixel is `0xFF`, then XOR-toggle it. -/
def drawStep (mem : Nat → Nat) (idx xPos yPos : Nat)
    (vf : (Nat → Nat) × Nat) (rc : Nat × Nat) : (Nat → Nat) × Nat :=
  let sb := mem ((idx + rc.1) % 65536)
  if spritePixel sb rc.2 ≠ 0 then
    let i := pixelIndex xPos yPos rc.1 rc.2
    (upd vf.1 i (vf.1 i ^^^ 0xFF), if vf.1 i = 0xFF then 1 else vf.2)
  else vf

/-- The `(row, col)` iteration order of the two nested Dxyn loops. -/
def rcPairs (height : Nat) : List (Nat × Nat) :=
  (List.range height).flatMap fun r => (List.range 8).map fun c => (r, c)

/-- The (video, VF) pair produced by the Dxyn loops, starting from the
current framebuffer and the cleared flag. -/
def drawVF (s : Chip8) : (Nat → Nat) × Nat :=
  List.foldl (drawStep s.memory s.index (s.registers (opVx s) % VIDEO_WIDTH)
      (s.registers (opVy s) % VIDEO_HEIGHT))
    (s.video, 0) (rcPairs (opN s))

/-- Dxyn: wrap the start position modulo the screen dimensions, clear
`VF`, then run the row/column loops.  Each row reads
`memory[(index + row) as usize]`; an out-of-range read panics in Rust,
modelled by `none` (a panicked draw leaves no observable state, so the
bound is checked up front). -/
def op_dxyn (s : Chip8) : Option Chip8 :=
  if ∀ r ∈ List.range (opN s), (s.index + r) % 65536 < 4096 then
    some { s with video := (drawVF s).1,
                  registers := upd s.registers 15 (drawVF s).2 }
  else none

/-- Ex9E: skip if the key numbered by `Vx` is pressed; `keypad[key]`
panics when `Vx` is 16 or more. -/
def op_ex9e (s : Chip8) : Option Chip8 :=
  let key := s.registers (opVx s)
  if key < 16 then
    if 0 < s.keypad key then some { s with pc := (s.pc + 2) % 65536 }
    else some s
  else none

/-- ExA1: skip if the key numbered by `Vx` is not pressed. -/
def op_exa1 (s : Chip8) : Option Chip8 :=
  let key := s.registers (opVx s)
  if key < 16 then
    if s.keypad key = 0 then some { s with pc := (s.pc + 2) % 65536 }
    else some s
  else none

/-- Fx07: `Vx = delay_timer`. -/
def op_fx07 (s : Chip8) : Option Chip8 :=
  some { s with registers := upd s.registers (opVx s) s.delay_timer }

/-- Fx0A: scan keys 0..15 in order; store the first pressed key in `Vx`,
or rewind the program counter by 2 (u16 wraparound) if none is pressed. -/
def op_fx0a (s : Chip8) : Option Chip8 :=
  match (List.range 16).find? (fun i => decide (0 < s.keypad i)) with
  | some i => some { s with registers := upd s.registers (opVx s) i }
  | none => some { s with pc := (s.pc + 65534) % 65536 }

/-- Fx15: `delay_timer = Vx`. -/
def op_fx15 (s : Chip8) : Option Chip8 :=
  some { s with delay_timer := s.registers (opVx s) }

/-- Fx18: `sound_timer = Vx`. -/
def op_fx18 (s : Chip8) : Option Chip8 :=
  some { s with sound_timer := s.registers (opVx s) }

/-- Fx1E: `index += Vx` (u16 wraparound). -/
def op_fx1e (s : Chip8) : Option Chip8 :=
  some { s with index := (s.index + s.registers (opVx s)) % 65536 }

/-- Fx29: `index = FONTSET_START_ADDRESS + 5 * digit`, where the
multiplication `5 * digit` is u8 arithmetic and wraps. -/
def op_fx29 (s : Chip8) : Option Chip8 :=
  some { s with index := (0x50 + (5 * s.registers (opVx s)) % 256) % 65536 }

/-- Fx33: decimal decomposition of `Vx` into
`memory[index] / memory[index+1] / memory[index+2]` (hundreds, tens,
ones; the ones digit is written first).  An out-of-range write panics,
modelled by `none`. -/
def op_fx33 (s : Chip8) : Option Chip8 :=
  let value := s.registers (opVx s)
  if (s.index + 2) % 65536 < 4096 ∧ (s.index + 1) % 65536 < 4096 ∧
      s.index < 4096 then
    let m1 := upd s.memory ((s.index + 2) % 65536) (value % 10)
    let m2 := upd m1 ((s.index + 1) % 65536) (value / 10 % 10)
    some { s with memory := upd m2 s.index (value / 10 / 10 % 10) }
  else none

/-- Fx55: store registers `0..=vx` into memory starting at `index`. -/
def op_fx55 (s : Chip8) : Option Chip8 :=
  if ∀ i ∈ List.range (opVx s + 1), (s.index + i) % 65536 < 4096 then
    let m := List.foldl (fun m i => upd m ((s.index + i) % 65536) (s.registers i)) s.memory (List.range (opVx s + 1))
    some { s with memory := m }
  else none

/-- Fx65: load memory starting at `index` into registers `0..=vx`. -/
def op_fx65 (s : Chip8) : Option Chip8 :=
  if ∀ i ∈ List.range (opVx s + 1), (s.index + i) % 65536 < 4096 then
    let r := List.foldl (fun r i => upd r i (s.memory ((s.index + i) % 65536))) s.registers (List.range (opVx s + 1))
    some { s with registers := r }
  else none

/-- The 15-element array `table_0` as assigned in `Chip8::new`
(slots without an assignment hold `op_null`). -/
def table_0 (k : Nat) : Chip8 → Option Chip8 :=
  if k = 0x0 then op_00e0 else if k = 0xE then op_00ee else op_null

/-- The helper `fn table_0`: index the 15-element sub-table with the
bottom nibble of the opcode; nibble 0xF indexes past the end of the
`[fn; 0xF]` array and panics, modelled by `none`. -/
def table_0_exec (s : Chip8) : Option Chip8 :=
  if s.opcode &&& 0x000F < 0xF then table_0 (s.opcode &&& 0x000F) s else none

/-- The 15-element array `table_8` as assigned in `Chip8::new`. -/
def table_8 (k : Nat) : Chip8 → Option Chip8 :=
  if k = 0x0 then op_8xy0 else if k = 0x1 then op_8xy1
  else if k = 0x2 then op_8xy2 else if k = 0x3 then op_8xy3
  else if k = 0x4 then op_8xy4 else if k = 0x5 then op_8xy5
  else if k = 0x6 then op_8xy6 else if k = 0x7 then op_8xy7
  else if k = 0xE then op_8xye else op_null

/-- The helper `fn table_8` (same 15-element bound as `table_0_exec`). -/
def table_8_exec (s : Chip8) : Option Chip8 :=
  if s.opcode &&& 0x000F < 0xF then table_8 (s.opcode &&& 0x000F) s else none

/-- The 15-element array `table_e` as assigned in `Chip8::new`. -/
def table_e (k : Nat) : Chip8 → Option Chip8 :=
  if k = 0x1 then op_exa1 else if k = 0xE then op_ex9e else op_null

/-- The helper `fn table_e` (same 15-element bound as `table_0_exec`). -/
def table_e_exec (s : Chip8) : Option Chip8 :=
  if s.opcode &&& 0x000F < 0xF then table_e (s.opcode &&& 0x000F) s else none

/-- The 0x66-element array `table_f` as assigned in `Chip8::new`. -/
def table_f (k : Nat) : Chip8 → Option Chip8 :=
  if k = 0x07 then op_fx07 else if k = 0x0A then op_fx0a
  else if k = 0x15 then op_fx15 else if k = 0x18 then op_fx18
  else if k = 0x1E then op_fx1e else if k = 0x29 then op_fx29
  else if k = 0x33 then op_fx33 else if k = 0x55 then op_fx55
  else if k = 0x65 then op_fx65 else op_null

/-- The helper `fn table_f`: the source masks with `0x000F`, so the
0x66-element table is indexed with the bottom nibble only. -/
def table_f_exec (s : Chip8) : Option Chip8 :=
  if s.opcode &&& 0x000F < 0x66 then table_f (s.opcode &&& 0x000F) s else none

/-- The 16-element primary table, indexed with
`(opcode & 0xF000) >> 12` as in `cycle` (always in bounds; the final
arm can only be reached with key 0xF). -/
def execute (s : Chip8) : Option Chip8 :=
  match (s.opcode &&& 0xF000) >>> 12 with
  | 0x0 => table_0_exec s
  | 0x1 => op_1nnn s
  | 0x2 => op_2nnn s
  | 0x3 => op_3xkk s
  | 0x4 => op_4xkk s
  | 0x5 => op_5xy0 s
  | 0x6 => op_6xkk s
  | 0x7 => op_7xkk s
  | 0x8 => table_8_exec s
  | 0x9 => op_9xy0 s
  | 0xA => op_annn s
  | 0xB => op_bnnn s
  | 0xC => op_cxkk s
  | 0xD => op_dxyn s
  | 0xE => table_e_exec s
  | _ => table_f_exec s

/-- The fetch-and-advance prefix of `cycle`: read the two bytes at the
program counter big-endian into the opcode field and advance the counter
by 2. -/
def fetchAdvance (s : Chip8) : Chip8 :=
  { s with opcode := (s.memory s.pc <<< 8) ||| s.memory ((s.pc + 1) % 65536),
           pc := (s.pc + 2) % 65536 }

/-- The timer-decay suffix of `cycle`: each timer is decremented when
nonzero and left at 0 otherwise. -/
def tickTimers (s : Chip8) : Chip8 :=
  { s with
    delay_timer := if 0 < s.delay_timer then s.delay_timer - 1 else s.delay_timer,
    sound_timer := if 0 < s.sound_timer then s.sound_timer - 1 else s.sound_timer }

/-- The `fn cycle` driver: fetch big-endian at `pc` (an out-of-range fetch panics,
modelled by `none`), advance `pc` by 2, dispatch through the primary
table, then decay both timers. -/
def cycle (s : Chip8) : Option Chip8 :=
  if s.pc < 4096 ∧ (s.pc + 1) % 65536 < 4096 then
    match execute { s with
        opcode := (s.memory s.pc <<< 8) ||| s.memory ((s.pc + 1) % 65536),
        pc := (s.pc + 2) % 65536 } with
    | some s2 => some { s2 with
        delay_timer := if 0 < s2.delay_timer then s2.delay_timer - 1
                       else s2.delay_timer,
        sound_timer := if 0 < s2.sound_timer then s2.sound_timer - 1
                       else s2.sound_timer }
    | none => none
  else none

/-- XOR-toggle of one framebuffer cell, the effect of the Dxyn write
`*screen_pixel ^= 0xFF`. -/
def tog (v : Nat → Nat) (i : Nat) : Nat → Nat := upd v i (v i ^^^ 0xFF)

/-- The effect of visiting one set sprite bit on the (video, VF) pair:
collision test against `0xFF`, then toggle. -/
def togStep (vf : (Nat → Nat) × Nat) (i : Nat) : (Nat → Nat) × Nat :=
  (tog vf.1 i, if vf.1 i = 0xFF then 1 else vf.2)

/-- The framebuffer cells a Dxyn draw toggles, in visiting order: one
entry per `(row, col)` pair whose sprite bit is set. -/
def touchedOf (mem : Nat → Nat) (idx xPos yPos : Nat) (l : List (Nat × Nat)) :
    List Nat :=
  l.filterMap fun rc =>
    if spritePixel (mem ((idx + rc.1) % 65536)) rc.2 ≠ 0 then
      some (pixelIndex xPos yPos rc.1 rc.2)
    else none

/-- The cells toggled by `op_dxyn` on state `s`. -/
def touched (s : Chip8) : List Nat :=
  touchedOf s.memory s.index (s.registers (opVx s) % VIDEO_WIDTH)
    (s.registers (opVy s) % VIDEO_HEIGHT) (rcPairs (opN s))

/-- The machine state with every array zeroed, as after `Chip8::new`
but without the font load and with the program counter at 0. -/
def zeroChip : Chip8 :=
  { registers := fun _ => 0, memory := fun _ => 0, index := 0, pc := 0,
    stack := fun _ => 0, sp := 0, delay_timer := 0, sound_timer := 0,
    keypad := fun _ => 0, video := fun _ => 0, opcode := 0, rand := 0 }

/-- Input for the add-registers scenario: `V0 = 200`, `V1 = 100`,
opcode `0x8014`. -/
def c1s : Chip8 :=
  { zeroChip with opcode := 0x8014,
                  registers := fun i => if i = 0 then 200 else if i = 1 then 100 else 0 }

/-- Input for the 4xkk skip: opcode `0x4042` with `V0 = 0x42`. -/
def c2s4 : Chip8 :=
  { zeroChip with opcode := 0x4042, pc := 0x202,
                  registers := fun i => if i = 0 then 0x42 else 0 }

/-- Input for the 5xy0 skip: opcode `0x5120` with `V1 = 0x20` and
`V2 = 0x99`, so the two registers differ. -/
def c2s5 : Chip8 :=
  { zeroChip with opcode := 0x5120, pc := 0x202,
                  registers := fun i => if i = 1 then 0x20 else if i = 2 then 0x99 else 0 }

/-- Input for the set-index opcode: word `0xA123`, `V0 = 7`, `pc` already
advanced to `0x202`, index register 0. -/
def c3s : Chip8 :=
  { zeroChip with opcode := 0xA123, pc := 0x202,
                  registers := fun i => if i = 0 then 7 else 0 }

/-- Input for the 0xF dispatch: word `0xF133` with `V1 = 159` and the
index register at `0x300`, so the decimal handler would write the digits
1, 5, 9 at `0x300..0x302`. -/
def c4s : Chip8 :=
  { zeroChip with opcode := 0xF133, pc := 0x202, index := 0x300,
                  registers := fun i => if i = 1 then 159 else 0 }

/-- Input for the sub-table bound: word `0x000F` (top nibble 0, bottom
nibble 0xF). -/
def c5s : Chip8 := { zeroChip with opcode := 0x000F, pc := 0x202 }

/-- Input for the draw wraparound: word `0xD011` (draw a 1-row sprite
with coordinates from `V0`, `V1`), `V0 = 0`, `V1 = 4`, sprite byte
`0x80` at the index register. -/
def c6s : Chip8 :=
  { zeroChip with opcode := 0xD011, pc := 0x202, index := 0x300,
                  registers := fun i => if i = 1 then 4 else 0,
                  memory := fun a => if a = 0x300 then 0x80 else 0 }

/-- Input for the cycle-order witness: the all-zero machine (the fetched
word 0x0000 dispatches to the screen-clear handler). -/
def c7s : Chip8 := zeroChip

/-- The state passed to the handler on the witness cycle. -/
def c7u : Chip8 := (execute (fetchAdvance c7s)).getD c7s

/-- The state after the witness cycle. -/
def c7t : Chip8 := (cycle c7s).getD c7s

/-- Input for the double-draw witness: word `0xD011`, both coordinate
registers 0, sprite byte `0x80` at `index = 0x300`. -/
def c8s : Chip8 :=
  { zeroChip with opcode := 0xD011, pc := 0x202, index := 0x300,
                  memory := fun a => if a = 0x300 then 0x80 else 0 }

/-- The witness state after the first draw. -/
def c8s1 : Chip8 := (op_dxyn c8s).getD c8s

/-- The witness state after the second draw. -/
def c8s2 : Chip8 := (op_dxyn c8s1).getD c8s

/-- Input for the call/return witness: opcode `0x2456` at `pc = 0x202`
with two frames already on the stack. -/
def c9s : Chip8 :=
  { zeroChip with opcode := 0x2456, pc := 0x202, sp := 2,
                  stack := fun i => if i = 0 then 0x208 else if i = 1 then 0x20C else 0 }

/-- Input for the wait-for-key witness: opcode `0xF30A` with keys 5 and 9
pressed. -/
def c10s : Chip8 :=
  { zeroChip with opcode := 0xF30A, pc := 0x202,
                  keypad := fun i => if i = 5 then 1 else if i = 9 then 1 else 0 }

theorem xor255_cancel (a : Nat) : a ^^^ 255 ^^^ 255 = a := by
  rw [Nat.xor_assoc, Nat.xor_self, Nat.xor_zero]

theorem upd_same (f : Nat → Nat) (i v : Nat) : upd f i v i = v := by
  simp [upd]

theorem upd_other (f : Nat → Nat) (i v j : Nat) (h : j ≠ i) : upd f i v j = f j := by
  simp [upd, h]

theorem tog_tog_self (v : Nat → Nat) (i : Nat) : tog (tog v i) i = v := by
  funext j
  by_cases h : j = i
  · subst h; simp [tog, upd, xor255_cancel]
  · simp [tog, upd, h]

theorem tog_comm (v : Nat → Nat) (i a : Nat) : tog (tog v i) a = tog (tog v a) i := by
  by_cases hia : i = a
  · subst hia; rfl
  · funext j
    by_cases hj : j = a
    · subst hj; simp [tog, upd, hia, Ne.symm hia]
    · by_cases hj' : j = i <;> simp [tog, upd, hj, hj', hia, Ne.symm hia]

theorem foldl_tog_pull (l : List Nat) : ∀ (v : Nat → Nat) (i : Nat),
    List.foldl tog (tog v i) l = tog (List.foldl tog v l) i := by
  induction l with
  | nil => intro v i; rfl
  | cons a t ih =>
    intro v i
    simp only [List.foldl_cons]
    rw [tog_comm, ih]

theorem foldl_tog_invol (l : List Nat) : ∀ v : Nat → Nat,
    List.foldl tog (List.foldl tog v l) l = v := by
  induction l with
  | nil => intro v; rfl
  | cons a t ih =>
    intro v
    simp only [List.foldl_cons]
    rw [foldl_tog_pull t v a, tog_tog_self, ih]

theorem foldl_tog_cases (l : List Nat) : ∀ (v : Nat → Nat) (c : Nat),
    List.foldl tog v l c = v c ∨ List.foldl tog v l c = v c ^^^ 255 := by
  induction l with
  | nil => intro v c; exact Or.inl rfl
  | cons a t ih =>
    intro v c
    simp only [List.foldl_cons]
    rcases ih (tog v a) c with h | h <;> by_cases hc : c = a
    · subst hc; rw [h]; right; simp [tog, upd]
    · left; rw [h]; simp [tog, upd, hc]
    · subst hc; rw [h]; left; simp [tog, upd, xor255_cancel]
    · right; rw [h]; simp [tog, upd, hc]

theorem foldl_togStep_fst (l : List Nat) : ∀ (v : Nat → Nat) (f : Nat),
    (List.foldl togStep (v, f) l).1 = List.foldl tog v l := by
  induction l with
  | nil => intro v f; rfl
  | cons a t ih => intro v f; simp only [List.foldl_cons, togStep]; exact ih _ _

theorem foldl_togStep_flag_one (l : List Nat) : ∀ v : Nat → Nat,
    (List.foldl togStep (v, 1) l).2 = 1 := by
  induction l with
  | nil => intro v; rfl
  | cons a t ih =>
    intro v
    simp only [List.foldl_cons, togStep, ite_self]
    exact ih _

theorem foldl_togStep_flag_of_mem (l : List Nat) : ∀ (v : Nat → Nat) (f c : Nat),
    c ∈ l → v c = 255 → (List.foldl togStep (v, f) l).2 = 1 := by
  induction l with
  | nil => intro v f c hc; exact absurd hc (List.not_mem_nil c)
  | cons a t ih =>
    intro v f c hc hv
    simp only [List.foldl_cons]
    by_cases ha : v a = 255
    · rw [show togStep (v, f) a = (tog v a, 1) by simp [togStep, ha]]
      exact foldl_togStep_flag_one t _
    · have hct : c ∈ t := by
        rcases List.mem_cons.mp hc with h | h
        · exact absurd (h ▸ hv) ha
        · exact h
      have hca : c ≠ a := fun h => ha (h ▸ hv)
      rw [show togStep (v, f) a = (tog v a, f) by simp [togStep, ha]]
      exact ih _ _ _ hct (by rw [show tog v a c = v c from upd_other _ _ _ _ hca]; exact hv)

theorem foldl_drawStep_eq (mem : Nat → Nat) (idx xPos yPos : Nat)
    (l : List (Nat × Nat)) : ∀ vf : (Nat → Nat) × Nat,
    List.foldl (drawStep mem idx xPos yPos) vf l =
      List.foldl togStep vf (touchedOf mem idx xPos yPos l) := by
  induction l with
  | nil => intro vf; rfl
  | cons rc t ih =>
    intro vf
    by_cases hb : spritePixel (mem ((idx + rc.1) % 65536)) rc.2 ≠ 0
    · rw [show touchedOf mem idx xPos yPos (rc :: t) =
          pixelIndex xPos yPos rc.1 rc.2 :: touchedOf mem idx xPos yPos t by
            simp [touchedOf, hb]]
      simp only [List.foldl_cons]
      rw [show drawStep mem idx xPos yPos vf rc =
          togStep vf (pixelIndex xPos yPos rc.1 rc.2) by simp [drawStep, hb, togStep, tog]]
      exact ih _
    · rw [show touchedOf mem idx xPos yPos (rc :: t) = touchedOf mem idx xPos yPos t by
            simp [touchedOf, hb]]
      simp only [List.foldl_cons]
      rw [show drawStep mem idx xPos yPos vf rc = vf by simp [drawStep, hb]]
      exact ih _

theorem drawVF_eq (s : Chip8) :
    drawVF s = List.foldl togStep (s.video, 0) (touched s) := by
  unfold drawVF touched
  exact foldl_drawStep_eq _ _ _ _ _ _

theorem drawVF_via (s t : Chip8) (f : Nat)
    (hop : t.opcode = s.opcode) (hmem : t.memory = s.memory)
    (hidx : t.index = s.index)
    (hreg : t.registers = upd s.registers 15 f)
    (hx : opVx s ≠ 15) (hy : opVy s ≠ 15) :
    drawVF t = List.foldl togStep (t.video, 0) (touched s) := by
  unfold drawVF
  rw [show opVx t = opVx s by unfold opVx; rw [hop],
      show opVy t = opVy s by unfold opVy; rw [hop],
      show opN t = opN s by unfold opN; rw [hop],
      hmem, hidx, hreg, upd_other _ _ _ _ hx, upd_other _ _ _ _ hy,
      foldl_drawStep_eq]
  rfl

theorem find_in_append {α : Type} (p : α → Bool) (l₁ l₂ : List α) :
    (l₁ ++ l₂).find? p =
      match l₁.find? p with | some x => some x | none => l₂.find? p := by
  induction l₁ with
  | nil => simp [List.find?]
  | cons a t ih => by_cases h : p a <;> simp [List.find?, h, ih]

theorem find_range_least (p : Nat → Bool) (n j : Nat) (hj : j < n)
    (hp : p j = true) (hmin : ∀ k, k < j → p k = false) :
    (List.range n).find? p = some j := by
  induction n with
  | zero => omega
  | succ m ih =>
    rw [List.range_succ, find_in_append]
    rcases Nat.lt_succ_iff_lt_or_eq.mp hj with h | h
    · rw [ih h]
    · subst h
      rw [show (List.range j).find? p = none from List.find?_eq_none.mpr
        (fun x hx => by rw [hmin x (List.mem_range.mp hx)]; simp)]
      simp [List.find?, hp]

/-- C1: the claim states that the add-registers opcode 8xy4 sets `VF` to 1
exactly when the 8-bit sum of the operands exceeds 255, and in particular
that `V0 = 200`, `V1 = 100` yields `V0 = 44` with `VF = 1`.  On the code
the addition is performed in u8 before the cast, so the carry test
compares an already-wrapped byte and can never fire: dispatching word
`0x8014` on that register file leaves `V0 = 44` but `VF = 0`. -/
theorem c1_add_registers :
    (execute c1s).map (fun t => (t.registers 0, t.registers 15)) = some (44, 0) :=
  rfl

/-- C2: the claim states that 4xkk skips iff `Vx ≠ kk` and 5xy0 skips iff
`Vx = Vy`.  On the code both handlers are byte-for-byte copies of
`op_3xkk`: word `0x4042` with `V0 = 0x42` skips (although the values are
equal), and word `0x5120` with `V1 = 0x20 ≠ V2 = 0x99` also skips
(because the handler compares `V1` with the immediate byte `0x20`). -/
theorem c2_skip_variants :
    (execute c2s4).map (fun t => t.pc) = some 0x204 ∧
      (execute c2s5).map (fun t => t.pc) = some 0x204 :=
  ⟨rfl, rfl⟩

/-- C3: the claim states that Annn stores the 12-bit address into the
index register and leaves the program counter alone.  On the code
`op_annn` is a copy of `op_bnnn`: dispatching word `0xA123` with `V0 = 7`
and `pc = 0x202` rewrites the program counter to `0x12A` and leaves the
index register untouched at 0. -/
theorem c3_set_index :
    (execute c3s).map (fun t => (t.pc, t.index)) = some (0x12A, 0) :=
  rfl

/-- C4: the claim states that 0xF-prefixed words dispatch on the bottom
byte, so `0xF133` reaches the decimal-decomposition handler.  On the code
`fn table_f` masks the opcode with `0x000F`, so word `0xF133` selects
slot 3 of the table, which holds the no-op: the machine state is returned
unchanged, while the decimal handler itself would have written the digits
1, 5, 9 of `V1 = 159` at `index..index+2`. -/
theorem c4_f_dispatch :
    execute c4s = some c4s ∧
      (op_fx33 c4s).map (fun t => (t.memory 0x300, t.memory 0x301, t.memory 0x302)) =
        some (1, 5, 9) :=
  ⟨rfl, rfl⟩

/-- C5: the claim states that every table lookup is in bounds for any
16-bit word.  On the code the sub-tables for prefixes 0x0, 0x8 and 0xE
are declared with 0xF = 15 elements, so a word with bottom nibble 0xF
indexes one past the end: dispatching word `0x000F` panics (modelled by
`none`) instead of resolving to a handler. -/
theorem c5_subtable_bound : execute c5s = none := rfl

/-- C6: the claim states that a draw toggles the cell at column
`(start_x + c) mod 64`, row `(start_y + r) mod 32`, wrapping overhanging
pixels.  On the code the framebuffer offset is computed entirely in u8
arithmetic, so `(y_pos + row) * 64` wraps modulo 256: drawing the 1-row
sprite `0x80` at `x = 0`, `y = 4` toggles `video[0]` (row 0) instead of
`video[256]` (row 4, as the claim requires), with no collision
reported. -/
theorem c6_draw_wrap :
    (execute c6s).map (fun t => (t.video 0, t.video 256, t.registers 15)) =
      some (255, 0, 0) :=
  rfl

/-- C7: each successful `cycle` call fetches the two bytes at the program
counter big-endian into the opcode field and advances the counter by 2
(`fetchAdvance`) before invoking the dispatched handler, and afterwards
decrements each timer by one exactly when it is nonzero, leaving a zero
timer at zero (timers are naturals, so they never wrap negative), while
touching no other field of the handler's result. -/
theorem c7_cycle_order (s u t : Chip8)
    (hu : execute (fetchAdvance s) = some u) (ht : cycle s = some t) :
    t = tickTimers u ∧
      (u.delay_timer = 0 → t.delay_timer = 0) ∧
      (0 < u.delay_timer → t.delay_timer = u.delay_timer - 1) ∧
      (u.sound_timer = 0 → t.sound_timer = 0) ∧
      (0 < u.sound_timer → t.sound_timer = u.sound_timer - 1) ∧
      t.pc = u.pc ∧ t.registers = u.registers ∧ t.video = u.video ∧
      t.opcode = u.opcode := by
  unfold cycle at ht
  split at ht
  case isFalse => exact absurd ht (by simp)
  case isTrue =>
    rw [show execute { s with opcode := (s.memory s.pc <<< 8) ||| s.memory ((s.pc + 1) % 65536), pc := (s.pc + 2) % 65536 } = some u from hu] at ht
    replace ht := Option.some.inj ht
    subst ht
    refine ⟨rfl, ?_, ?_, ?_, ?_, rfl, rfl, rfl, rfl⟩
    · intro h; simp [h]
    · intro h
      show (if 0 < u.delay_timer then u.delay_timer - 1 else u.delay_timer) = u.delay_timer - 1
      rw [if_pos h]
    · intro h; simp [h]
    · intro h
      show (if 0 < u.sound_timer then u.sound_timer - 1 else u.sound_timer) = u.sound_timer - 1
      rw [if_pos h]

/-- C7 witness: one concrete cycle of the all-zero machine. -/
theorem c7_cycle_order_witness : c7t = tickTimers c7u ∧ c7t.pc = c7u.pc := by
  have h := c7_cycle_order c7s c7u c7t rfl rfl
  exact ⟨h.1, h.2.2.2.2.2.1⟩

/-- C8: drawing twice from identical inputs (the coordinate registers are
not `VF`, so the first draw's flag write does not change the sprite
position) restores every framebuffer cell to its value before the first
draw, and the second draw reports a collision in `VF` whenever the first
draw turned some previously-off touched cell on. -/
theorem c8_double_draw (s₀ s₁ s₂ : Chip8)
    (hx : opVx s₀ ≠ 15) (hy : opVy s₀ ≠ 15)
    (h1 : op_dxyn s₀ = some s₁) (h2 : op_dxyn s₁ = some s₂) :
    (∀ j, s₂.video j = s₀.video j) ∧
      (∀ c, c ∈ touched s₀ → s₀.video c = 0 → s₁.video c ≠ 0 →
        s₂.registers 15 = 1) := by
  unfold op_dxyn at h1 h2
  split at h1
  case isFalse => exact absurd h1 (by simp)
  case isTrue =>
    replace h1 := Option.some.inj h1
    have hvid1 : s₁.video = (drawVF s₀).1 := by rw [← h1]
    have hreg1 : s₁.registers = upd s₀.registers 15 (drawVF s₀).2 := by rw [← h1]
    have hop1 : s₁.opcode = s₀.opcode := by rw [← h1]
    have hmem1 : s₁.memory = s₀.memory := by rw [← h1]
    have hidx1 : s₁.index = s₀.index := by rw [← h1]
    split at h2
    case isFalse => exact absurd h2 (by simp)
    case isTrue =>
      replace h2 := Option.some.inj h2
      have hvid2 : s₂.video = (drawVF s₁).1 := by rw [← h2]
      have hreg2 : s₂.registers = upd s₁.registers 15 (drawVF s₁).2 := by rw [← h2]
      have hdu : drawVF s₁ = List.foldl togStep (s₁.video, 0) (touched s₀) :=
        drawVF_via s₀ s₁ _ hop1 hmem1 hidx1 hreg1 hx hy
      have hv1 : s₁.video = List.foldl tog s₀.video (touched s₀) := by
        rw [hvid1, drawVF_eq, foldl_togStep_fst]
      constructor
      · intro j
        rw [hvid2, hdu, foldl_togStep_fst, hv1, foldl_tog_invol]
      · intro c hc h0 hne
        have h255 : s₁.video c = 255 := by
          rw [hv1] at hne ⊢
          rcases foldl_tog_cases (touched s₀) s₀.video c with h | h
          · exact absurd (h.trans h0) hne
          · rw [h, h0]; decide
        rw [hreg2, upd_same, hdu]
        exact foldl_togStep_flag_of_mem _ _ _ _ hc h255

/-- C8 witness: the 1-row sprite `0x80` drawn twice at the origin; the
toggled cell returns to off and the second draw reports a collision. -/
theorem c8_double_draw_witness :
    c8s2.video 0 = c8s.video 0 ∧ c8s2.registers 15 = 1 := by
  have h := c8_double_draw c8s c8s1 c8s2 (by decide) (by decide) rfl rfl
  exact ⟨h.1 0, h.2 0 (by decide) rfl (by decide)⟩

/-- C9: with fewer than 16 frames on the stack, a call (2nnn) followed
immediately by a return (00EE) gives back exactly the pre-call state
except for the saved return address in the stack slot: in particular the
program counter and the stack pointer are restored. -/
theorem c9_call_return (s : Chip8) (h : s.sp < 16) :
    (op_2nnn s).bind op_00ee = some { s with stack := upd s.stack s.sp s.pc } := by
  unfold op_2nnn op_00ee
  rw [if_pos h]
  show op_00ee _ = _
  unfold op_00ee
  have e1 : ((s.sp + 1) % 256 + 255) % 256 = s.sp := by omega
  simp only [e1]
  rw [if_pos h]
  rw [show upd s.stack s.sp s.pc s.sp = s.pc from upd_same _ _ _]

/-- C9 witness: a call at `pc = 0x202` with stack depth 2. -/
theorem c9_call_return_witness :
    (op_2nnn c9s).bind op_00ee = some { c9s with stack := upd c9s.stack c9s.sp c9s.pc } :=
  c9_call_return c9s (by decide)

/-- C10: when some key is pressed, Fx0A stores the smallest pressed key
index into `Vx` and changes nothing else — in particular the program
counter is not rewound and no other register moves. -/
theorem c10_wait_key (s : Chip8) (j : Nat) (hj : j < 16) (hk : 0 < s.keypad j)
    (hmin : ∀ k ∈ List.range j, s.keypad k = 0) :
    op_fx0a s = some { s with registers := upd s.registers (opVx s) j } := by
  unfold op_fx0a
  rw [find_range_least (fun i => decide (0 < s.keypad i)) 16 j hj (by simp [hk])
    (fun k hk' => by simp [hmin k (List.mem_range.mpr hk')])]

/-- C10 witness: keys 5 and 9 pressed; the handler stores 5. -/
theorem c10_wait_key_witness :
    op_fx0a c10s = some { c10s with registers := upd c10s.registers (opVx c10s) 5 } :=
  c10_wait_key c10s 5 (by decide) (by decide) (by decide)
